import Mathlib

/-
Shallow embedding of the miniizi-api item-resolution pipeline (src/main.py):
window selection by tariff code, name normalization lookup, supplier ranking,
content-addressed XML storage, and NF-e XML item extraction.
-/

namespace MiniIzi

/-- Short-window statistics view name (`VIEW_7D` in src/main.py line 28). -/
def VIEW_7D : String := "v_preco_stats_7d"

/-- Long-window statistics view name (`VIEW_90D` in src/main.py line 29). -/
def VIEW_90D : String := "v_preco_stats_90d"

/-- Embedding of `re.sub(r"\D", "", s)`: keep only the digit characters of `s`
(digits modelled as ASCII digits). -/
def keepDigits (s : String) : String := String.mk (s.data.filter Char.isDigit)

/-- Embedding of Python `str.zfill w`: left-pad with zeros to width `w`.  The sign
handling of `zfill` is irrelevant here because it is only applied to digit-only
strings. -/
def zfill (w : Nat) (s : String) : String :=
  String.mk (List.replicate (w - s.length) '0' ++ s.data)

/-- Embedding of `int(digits)` for a digit-only string. -/
def digitsToNat (s : String) : Nat :=
  s.data.foldl (fun acc c => 10 * acc + (c.toNat - 48)) 0

/-- Embedding of `escolhe_view_por_ncm` (src/main.py lines 138-157).  Python's
`if not pr_ncm` is true exactly for `None` and the empty string. -/
def escolhe_view_por_ncm (pr_ncm : Option String) : String :=
  match pr_ncm with
  | none => VIEW_90D
  | some s =>
    if s = "" then VIEW_90D
    else
      let digits := keepDigits s
      let digits := if digits.length < 8 then zfill 8 digits else digits
      if digits.length ≠ 8 then VIEW_90D
      else if digitsToNat digits ≤ 8000000 then VIEW_7D else VIEW_90D

/-- The reference algorithm exactly as claim C1 words it: strip non-digits; absent
input or an empty resulting digit string gives the long window; more than 8 digits
gives the long window; otherwise left-pad to 8 digits and route short iff the value
is at most 8,000,000. -/
def selectWindowC1 (c : Option String) : String :=
  match c with
  | none => VIEW_90D
  | some s =>
    let digits := keepDigits s
    if digits = "" then VIEW_90D
    else if digits.length > 8 then VIEW_90D
    else if digitsToNat (zfill 8 digits) ≤ 8000000 then VIEW_7D else VIEW_90D

/-- The amended reference algorithm: the long-window fallback applies to an absent
input or an empty *input string*; a non-empty input whose digits strip to the empty
string is zero-padded to `"00000000"` and hence routed to the short window. -/
def selectWindowAmended (c : Option String) : String :=
  match c with
  | none => VIEW_90D
  | some s =>
    if s = "" then VIEW_90D
    else
      let digits := keepDigits s
      if digits.length > 8 then VIEW_90D
      else if digitsToNat (zfill 8 digits) ≤ 8000000 then VIEW_7D else VIEW_90D

namespace SHA256

/-
Embedding of `hashlib.sha256(...).hexdigest()` (FIPS 180-4), used by
`salva_xml_no_banco` (src/main.py line 70).  Bytes are Nats taken mod 256 and
32-bit words are Nats reduced mod 2^32 at every arithmetic step.
-/

/-- 2^32, the word modulus. -/
def M32 : Nat := 4294967296

/-- Right rotation of a 32-bit word, in arithmetic form. -/
def rotr (n x : Nat) : Nat := x / 2 ^ n + x % 2 ^ n * 2 ^ (32 - n)

/-- Logical right shift of a 32-bit word. -/
def shr (n x : Nat) : Nat := x / 2 ^ n

def bsig0 (x : Nat) : Nat := rotr 2 x ^^^ rotr 13 x ^^^ rotr 22 x

def bsig1 (x : Nat) : Nat := rotr 6 x ^^^ rotr 11 x ^^^ rotr 25 x

def ssig0 (x : Nat) : Nat := rotr 7 x ^^^ rotr 18 x ^^^ shr 3 x

def ssig1 (x : Nat) : Nat := rotr 17 x ^^^ rotr 19 x ^^^ shr 10 x

def ch (e f g : Nat) : Nat := e &&& f ^^^ ((e ^^^ 4294967295) &&& g)

def maj (a b c : Nat) : Nat := a &&& b ^^^ (a &&& c) ^^^ (b &&& c)

/-- Round constants: fractional parts of the cube roots of the first 64 primes. -/
def K : List Nat :=
  [1116352408, 1899447441, 3049323471, 3921009573, 961987163, 1508970993, 2453635748,
   2870763221, 3624381080, 310598401, 607225278, 1426881987, 1925078388, 2162078206,
   2614888103, 3248222580, 3835390401, 4022224774, 264347078, 604807628, 770255983,
   1249150122, 1555081692, 1996064986, 2554220882, 2821834349, 2952996808, 3210313671,
   3336571891, 3584528711, 113926993, 338241895, 666307205, 773529912, 1294757372,
   1396182291, 1695183700, 1986661051, 2177026350, 2456956037, 2730485921, 2820302411,
   3259730800, 3345764771, 3516065817, 3600352804, 4094571909, 275423344, 430227734,
   506948616, 659060556, 883997877, 958139571, 1322822218, 1537002063, 1747873779,
   1955562222, 2024104815, 2227730452, 2361852424, 2428436474, 2756734187, 3204031479,
   3329325298]

/-- Initial hash state: fractional parts of the square roots of the first 8 primes. -/
def H0 : List Nat :=
  [1779033703, 3144134277, 1013904242, 2773480762, 1359893119, 2600822924, 528734635,
   1541459225]

/-- The 8-byte big-endian encoding of the bit length. -/
def lengthBytes (n : Nat) : List Nat :=
  [n / 2 ^ 56 % 256, n / 2 ^ 48 % 256, n / 2 ^ 40 % 256, n / 2 ^ 32 % 256,
   n / 2 ^ 24 % 256, n / 2 ^ 16 % 256, n / 2 ^ 8 % 256, n % 256]

/-- Merkle-Damgård padding: append 0x80, zeros to 56 mod 64, then the bit length. -/
def padBytes (msg : List Nat) : List Nat :=
  msg ++ 128 :: List.replicate ((64 + 56 - (msg.length + 1) % 64) % 64) 0 ++
    lengthBytes (8 * msg.length)

/-- Big-endian 32-bit words from groups of 4 bytes. -/
def toWords : List Nat → List Nat
  | b0 :: b1 :: b2 :: b3 :: rest =>
      (b0 % 256 * 16777216 + b1 % 256 * 65536 + b2 % 256 * 256 + b3 % 256) :: toWords rest
  | _ => []

/-- Split a list into 64-byte blocks; structural recursion on a fuel bounded by the
length (each step consumes at least one element, so `fuel = l.length` is enough). -/
def chunksGo : Nat → List Nat → List (List Nat)
  | 0, _ => []
  | _, [] => []
  | fuel + 1, l => l.take 64 :: chunksGo fuel (l.drop 64)

/-- Split the padded message into 64-byte blocks. -/
def chunks (l : List Nat) : List (List Nat) := chunksGo l.length l

/-- Next message-schedule word; the schedule so far is kept most-recent-first. -/
def nextW (w : List Nat) : Nat :=
  (ssig1 (w.getD 1 0) + w.getD 6 0 + ssig0 (w.getD 14 0) + w.getD 15 0) % M32

/-- Extend the (reversed) message schedule by `n` words. -/
def extendW : Nat → List Nat → List Nat
  | 0, w => w
  | n + 1, w => extendW n (nextW w :: w)

/-- The 64-word message schedule of a block. -/
def schedule (block : List Nat) : List Nat :=
  (extendW 48 (toWords block).reverse).reverse

/-- One compression round on the state `[a, b, c, d, e, f, g, h]`. -/
def step (s : List Nat) (k w : Nat) : List Nat :=
  let a := s.getD 0 0
  let b := s.getD 1 0
  let c := s.getD 2 0
  let d := s.getD 3 0
  let e := s.getD 4 0
  let t1 := (s.getD 7 0 + bsig1 e + ch e (s.getD 5 0) (s.getD 6 0) + k + w) % M32
  let t2 := (bsig0 a + maj a b c) % M32
  [(t1 + t2) % M32, a, b, c, (d + t1) % M32, e, s.getD 5 0, s.getD 6 0]

/-- Compress one 64-byte block into the running hash state. -/
def compressBlock (hs : List Nat) (block : List Nat) : List Nat :=
  let s := (K.zip (schedule block)).foldl (fun s kw => step s kw.1 kw.2) hs
  (hs.zip s).map (fun p => (p.1 + p.2) % M32)

/-- SHA-256 digest as a list of 32 bytes. -/
def sha256 (msg : List Nat) : List Nat :=
  ((chunks (padBytes msg)).foldl compressBlock H0).flatMap
    (fun w => [w / 16777216 % 256, w / 65536 % 256, w / 256 % 256, w % 256])

/-- Lower-case hex digit. -/
def hexChar (n : Nat) : Char := if n < 10 then Char.ofNat (48 + n) else Char.ofNat (87 + n)

/-- `hashlib.sha256(msg).hexdigest()`. -/
def sha256hex (msg : List Nat) : String :=
  String.mk ((sha256 msg).flatMap (fun b => [hexChar (b / 16), hexChar (b % 16)]))

end SHA256

/-- A row of the `xml_bruto` table (unique key `hash_sha256`). -/
structure XmlRecord where
  hash_sha256 : String
  filename : Option String
  content_type : Option String
  tamanho_bytes : Nat
  xml_blob : List Nat
deriving DecidableEq

/-- The `xml_bruto` table, as the ordered list of its rows. -/
abbrev XmlStore := List XmlRecord

/-- Whether the table already holds a row with the given hash (the UNIQUE key). -/
def hasHash (store : XmlStore) (h : String) : Bool :=
  store.any (fun r => r.hash_sha256 == h)

/-- Embedding of `salva_xml_no_banco` (src/main.py lines 60-89): hash the raw bytes
with SHA-256, `INSERT IGNORE` a row keyed by the hash (a duplicate key leaves the
table unchanged, per the UNIQUE constraint on `hash_sha256`), and return the hex
digest unconditionally. -/
def salva_xml_no_banco (store : XmlStore) (xml_bytes : List Nat)
    (filename content_type : Option String) : String × XmlStore :=
  let h := SHA256.sha256hex xml_bytes
  if hasHash store h then (h, store)
  else (h, store ++ [⟨h, filename, content_type, xml_bytes.length, xml_bytes⟩])

/-- Repeated stores of the same bytes under a list of metadata pairs. -/
def salvaMany : XmlStore → List Nat → List (Option String × Option String) → XmlStore
  | store, _, [] => store
  | store, b, m :: ms => salvaMany (salva_xml_no_banco store b m.1 m.2).2 b ms

/-- Number of rows holding exactly the given raw bytes. -/
def countBlob (store : XmlStore) (b : List Nat) : Nat :=
  (store.filter (fun r => r.xml_blob == b)).length

/-- Embedding of `_strip_ns` (src/main.py lines 264-265): everything after the
first `}` when one occurs in the tag (ElementTree renders a namespaced tag as
`{uri}local`), the tag itself otherwise. -/
def stripNs (tag : String) : String :=
  if tag.data.contains '}' then String.mk ((tag.data.dropWhile (fun ch => ch ≠ '}')).drop 1)
  else tag

/-- An ElementTree element: tag, `.text`, and child elements. -/
inductive XTree where
  | node (tag : String) (text : Option String) (children : List XTree)

def XTree.tag : XTree → String
  | .node t _ _ => t

def XTree.text : XTree → Option String
  | .node _ s _ => s

mutual

/-- `element.iter()`: the element itself followed by all of its descendants, in
document (preorder) order. -/
def XTree.iter : XTree → List XTree
  | .node t s cs => .node t s cs :: iterList cs

/-- `iter` concatenated over a list of sibling elements. -/
def iterList : List XTree → List XTree
  | [] => []
  | c :: cs => c.iter ++ iterList cs

end

/-- Embedding of `_findall_no_ns` (src/main.py lines 268-269): all elements of the
tree whose local tag name matches. -/
def findallNoNs (root : XTree) (wanted : String) : List XTree :=
  root.iter.filter (fun el => stripNs el.tag == wanted)

/-- Python `str.strip()`: drop whitespace from both ends of the character list. -/
def pyStrip (s : String) : String :=
  String.mk (((s.data.dropWhile Char.isWhitespace).reverse.dropWhile Char.isWhitespace).reverse)

/-- The inner `get_text` of `parse_nfe_itens` (src/main.py lines 297-301): the
trimmed text of the first descendant of `prod` (the node itself included) whose
local tag matches, or `none` when no such descendant exists. -/
def getText (prod : XTree) (tagname : String) : Option String :=
  (prod.iter.find? (fun n => stripNs n.tag == tagname)).map
    (fun n => pyStrip (n.text.getD ""))

/-- An extracted line item, one dict of the list built by `parse_nfe_itens`. -/
structure Item where
  pr_nomeProduto : String
  pr_unidade : String
  pr_ncm : String
deriving DecidableEq

/-- The body of the `det` loop of `parse_nfe_itens` (src/main.py lines 291-314):
a `det` with no `prod` descendant is skipped; `xProd`, `uCom` and `NCM` are read
from the first `prod`; the item is emitted only when the trimmed product name is
non-empty. -/
def detToItem (det : XTree) : Option Item :=
  match det.iter.find? (fun n => stripNs n.tag == "prod") with
  | none => none
  | some prod =>
    let xprod := (getText prod "xProd").getD ""
    let ucom := (getText prod "uCom").getD ""
    let ncm := (getText prod "NCM").getD ""
    if xprod = "" then none else some ⟨xprod, ucom, ncm⟩

/-- The `det` elements of the tree, in document order. -/
def detNodes (root : XTree) : List XTree := findallNoNs root "det"

/-- The item list `parse_nfe_itens` extracts from a parsed document. -/
def extractItems (root : XTree) : List Item :=
  (detNodes root).filterMap detToItem

/-- The failure modes of `parse_nfe_itens`: HTTP 400 for a document the XML parser
rejects, HTTP 422 for a parse that yields no items. -/
inductive NfeError where
  | invalidDocument
  | noItemsFound
deriving DecidableEq

/-- Embedding of `parse_nfe_itens` (src/main.py lines 272-322).  The outcome of
`defusedxml.ElementTree.fromstring` is passed in as `parsed`: `none` when the
parser raised (invalid document), `some root` when it produced a tree. -/
def parse_nfe_itens (parsed : Option XTree) : Except NfeError (List Item) :=
  match parsed with
  | none => .error .invalidDocument
  | some root =>
    let itens := extractItems root
    if itens.isEmpty then .error .noItemsFound else .ok itens

/-- A sample `det` element with product name, unit and tariff code. -/
def sampleDet : XTree :=
  .node "det" none
    [.node "prod" none
      [.node "xProd" (some " Arroz 5kg ") [],
       .node "uCom" (some "UN") [],
       .node "NCM" (some "10063021") []]]

/-- A sample invoice document containing one `det`. -/
def sampleDoc : XTree := .node "nfeProc" none [.node "NFe" none [.node "infNFe" none [sampleDet]]]

/-- A well-formed document with no `det` element at all. -/
def noDetDoc : XTree := .node "NFe" none [.node "infNFe" none []]

/-- The emission condition exactly as claim C6 words it: the first `prod`
descendant of the `det` contains *some* `xProd` descendant whose trimmed text is
non-empty. -/
def claimC6Emits (det : XTree) : Bool :=
  match det.iter.find? (fun n => stripNs n.tag == "prod") with
  | none => false
  | some prod =>
    prod.iter.any (fun n => stripNs n.tag == "xProd" && pyStrip (n.text.getD "") != "")

/-- A `det` whose first `xProd` is whitespace-only but whose second `xProd` has
real text: claim C6 predicts emission, the code skips the `det`. -/
def skipXProdDet : XTree :=
  .node "det" none
    [.node "prod" none
      [.node "xProd" (some "   ") [], .node "xProd" (some "Feijao") []]]

mutual

/-- Two parsed documents that differ only in the namespace part of their tags:
same structure, same text, same local tag names. -/
inductive NsEquiv : XTree → XTree → Prop where
  | node {t₁ t₂ : String} {s₁ s₂ : Option String} {cs₁ cs₂ : List XTree} :
      stripNs t₁ = stripNs t₂ → s₁ = s₂ → NsEquivList cs₁ cs₂ →
      NsEquiv (.node t₁ s₁ cs₁) (.node t₂ s₂ cs₂)

/-- `NsEquiv` lifted to sibling lists. -/
inductive NsEquivList : List XTree → List XTree → Prop where
  | nil : NsEquivList [] []
  | cons {x y : XTree} {xs ys : List XTree} :
      NsEquiv x y → NsEquivList xs ys → NsEquivList (x :: xs) (y :: ys)

end

/-- A namespaced copy of a small invoice document. -/
def nsDoc : XTree :=
  .node "{http://www.portalfiscal.inf.br/nfe}NFe" none
    [.node "{http://www.portalfiscal.inf.br/nfe}det" none
      [.node "{http://www.portalfiscal.inf.br/nfe}prod" none
        [.node "{http://www.portalfiscal.inf.br/nfe}xProd" (some "Acucar") [],
         .node "{http://www.portalfiscal.inf.br/nfe}uCom" (some "KG") []]]]

/-- The same document with bare tags. -/
def plainDoc : XTree :=
  .node "NFe" none
    [.node "det" none
      [.node "prod" none
        [.node "xProd" (some "Acucar") [], .node "uCom" (some "KG") []]]]

/-- A row of the `v_mapa_nomeproduto_norm` view. -/
structure NormRecord where
  pr_nomeProduto : String
  pr_unidade : String
  pr_nomeNorm : String
  ocorrencias : Nat
deriving DecidableEq

/-- A row of a price-statistics view (`v_preco_stats_7d` / `v_preco_stats_90d`);
prices are modelled as exact integers (e.g. cents). -/
structure Quote where
  pr_nomeFornecedor : String
  pr_cnpjFornecedor : String
  pr_nomeNorm : String
  pr_unidade : String
  pr_ncm : String
  preco_media : Int
  preco_min : Int
  n : Nat
deriving DecidableEq

/-- The read-only data sources queried by `analisa`. -/
structure Db where
  mapa : List NormRecord
  stats7d : List Quote
  stats90d : List Quote

/-- The rows of the view named `v` (the `FROM {view_stats}` interpolation;
`escolhe_view_por_ncm` only ever produces the two view names). -/
def viewOf (db : Db) (v : String) : List Quote :=
  if v = VIEW_7D then db.stats7d else db.stats90d

/-- `ORDER BY ocorrencias DESC` as a relation on normalization rows. -/
def occGe (a b : NormRecord) : Prop := b.ocorrencias ≤ a.ocorrencias

instance occGe_decidable : DecidableRel occGe := fun a b =>
  Nat.decLe b.ocorrencias a.ocorrencias

instance occGe_total : IsTotal NormRecord occGe :=
  ⟨fun a b => Nat.le_total b.ocorrencias a.ocorrencias⟩

instance occGe_trans : IsTrans NormRecord occGe :=
  ⟨fun _ _ _ hab hbc => le_trans hbc hab⟩

/-- `ORDER BY preco_media ASC` as a relation on quotes. -/
def precoLe (a b : Quote) : Prop := a.preco_media ≤ b.preco_media

instance precoLe_decidable : DecidableRel precoLe := fun a b =>
  Int.decLe a.preco_media b.preco_media

instance precoLe_total : IsTotal Quote precoLe :=
  ⟨fun a b => Int.le_total a.preco_media b.preco_media⟩

instance precoLe_trans : IsTrans Quote precoLe :=
  ⟨fun _ _ _ hab hbc => le_trans hab hbc⟩

/-- The normalization query of `analisa` (src/main.py lines 186-196): the rows of
`v_mapa_nomeproduto_norm` matching the exact (name, unit) pair, ordered by
occurrence count descending, `LIMIT 1`. -/
def lookupNormRow (db : Db) (nome unidade : String) : Option NormRecord :=
  (List.insertionSort occGe
    (db.mapa.filter
      (fun r => r.pr_nomeProduto == nome && r.pr_unidade == unidade))).head?

/-- The ranking query of `analisa` (src/main.py lines 211-231): the rows of the
selected view with exact (normalized name, unit) match and `n >= n_min`, ordered
by mean price ascending, `LIMIT limite`. -/
def rankSuppliers (db : Db) (view nome_norm unidade : String) (n_min limite : Nat) :
    List Quote :=
  (List.insertionSort precoLe
    ((viewOf db view).filter
      (fun q => q.pr_nomeNorm == nome_norm && q.pr_unidade == unidade &&
        decide (n_min ≤ q.n)))).take limite

/-- One input line item of an `/analisa` request. -/
structure ItemXML where
  pr_nomeProduto : String
  pr_unidade : String
  pr_ncm : Option String
deriving DecidableEq

/-- The `/analisa` request body (src/main.py lines 166-170). -/
structure AnalisaRequest where
  itens : List ItemXML
  janela_padrao_dias : Nat
  limite_fornecedores : Nat
  n_min : Nat

/-- One result dict appended by `analisa` (`pr_nomeNorm` is absent from the
`SEM_MAPEAMENTO` dict, modelled as `none`). -/
structure ItemResult where
  pr_nomeProduto : String
  pr_unidade : String
  pr_nomeNorm : Option String
  status : String
  fornecedores : List Quote
deriving DecidableEq

/-- The per-item body of the `analisa` loop (src/main.py lines 180-253), with the
Python local variables (`nome_prod`, `unidade`, `view_stats`, `fornecedores`)
inlined. -/
def processaItem (db : Db) (n_min limite : Nat) (item : ItemXML) : ItemResult :=
  match lookupNormRow db (pyStrip item.pr_nomeProduto) (pyStrip item.pr_unidade) with
  | none =>
    ⟨pyStrip item.pr_nomeProduto, pyStrip item.pr_unidade, none, "SEM_MAPEAMENTO", []⟩
  | some row =>
    if (rankSuppliers db (escolhe_view_por_ncm item.pr_ncm) row.pr_nomeNorm
        (pyStrip item.pr_unidade) n_min limite).isEmpty then
      ⟨pyStrip item.pr_nomeProduto, pyStrip item.pr_unidade, some row.pr_nomeNorm,
        "DADOS_INSUFICIENTES", []⟩
    else
      ⟨pyStrip item.pr_nomeProduto, pyStrip item.pr_unidade, some row.pr_nomeNorm, "OK",
        rankSuppliers db (escolhe_view_por_ncm item.pr_ncm) row.pr_nomeNorm
          (pyStrip item.pr_unidade) n_min limite⟩

/-- Embedding of `analisa` (src/main.py lines 173-257): the loop appends one
result per input item and never breaks out early. -/
def analisa (db : Db) (req : AnalisaRequest) : List ItemResult :=
  req.itens.map (processaItem db req.n_min req.limite_fornecedores)

/-- The success payload of `/analisa_xml`. -/
structure UploadResponse where
  hash_xml : String
  count : Nat
  itens_extraidos : List Item
deriving DecidableEq

/-- Embedding of `analisa_xml` (src/main.py lines 325-355): the raw bytes are
stored (content-addressed) *before* extraction is attempted; `parseXml` stands for
`defusedxml.ElementTree.fromstring`, `none` meaning the parser raised.  An
extraction failure is returned as the error while the storage effect remains. -/
def analisa_xml (parseXml : List Nat → Option XTree) (store : XmlStore)
    (xml_bytes : List Nat) (filename content_type : Option String) :
    Except NfeError UploadResponse × XmlStore :=
  let res := salva_xml_no_banco store xml_bytes filename content_type
  match parse_nfe_itens (parseXml xml_bytes) with
  | .error e => (.error e, res.2)
  | .ok itens => (.ok ⟨res.1, itens.length, itens⟩, res.2)

/-- Sample normalization rows and quotes for the witnesses. -/
def recArroz : NormRecord := ⟨"Arroz 5kg", "UN", "ARROZ", 7⟩

def recArroz2 : NormRecord := ⟨"Arroz 5kg", "UN", "ARROZ BRANCO", 3⟩

def quoteA : Quote := ⟨"Fornecedor A", "111", "ARROZ", "UN", "10063021", 2100, 2000, 5⟩

def quoteB : Quote := ⟨"Fornecedor B", "222", "ARROZ", "UN", "10063021", 1990, 1900, 4⟩

def sampleDb : Db := ⟨[recArroz2, recArroz], [quoteA, quoteB], [quoteB]⟩

def sampleItem : ItemXML := ⟨" Arroz 5kg ", "UN", some "10063021"⟩

def sampleReq : AnalisaRequest := ⟨[⟨"desconhecido", "UN", none⟩, sampleItem], 30, 5, 3⟩

theorem length_zfill (w : Nat) (s : String) : (zfill w s).length = (w - s.length) + s.length := by
  simp [zfill]

theorem zfill_of_le (w : Nat) (s : String) (h : w ≤ s.length) : zfill w s = s := by
  have : w - s.length = 0 := Nat.sub_eq_zero_of_le h
  cases s with
  | mk data => simp [zfill, this, String.length] at *

/-- C1, counterexample: on the input `"abc"` (non-empty but digit-free) the code
strips to the empty digit string, zero-pads it to `"00000000"`, and returns the
short window, while the claim's reference algorithm returns the long window; the
result therefore also fails to depend only on the digit content (`""` routes long,
`"abc"` routes short, with the same digit content). -/
theorem C1_window_counterexample :
    escolhe_view_por_ncm (some "abc") = VIEW_7D ∧
    selectWindowC1 (some "abc") = VIEW_90D ∧
    VIEW_7D ≠ VIEW_90D ∧
    keepDigits "abc" = keepDigits "" ∧
    escolhe_view_por_ncm (some "abc") ≠ escolhe_view_por_ncm (some "") := by
  refine ⟨by decide, by decide, by decide, by decide, by decide⟩

/-- C1 (amended): `escolhe_view_por_ncm` equals the amended reference algorithm —
absent or empty *input* gives LONG; otherwise strip non-digits, more than 8 digits
gives LONG, else left-pad to 8 and route SHORT iff the value is ≤ 8,000,000 — and
on non-empty inputs the result depends only on the digit content of the input. -/
theorem C1_window_amended :
    (∀ c : Option String, escolhe_view_por_ncm c = selectWindowAmended c) ∧
    (∀ s₁ s₂ : String, s₁ ≠ "" → s₂ ≠ "" → keepDigits s₁ = keepDigits s₂ →
      escolhe_view_por_ncm (some s₁) = escolhe_view_por_ncm (some s₂)) := by
  constructor
  · intro c
    match c with
    | none => rfl
    | some s =>
      simp only [escolhe_view_por_ncm, selectWindowAmended]
      by_cases hs : s = ""
      · simp [hs]
      · simp only [hs, if_false]
        by_cases hlt : (keepDigits s).length < 8
        · have h8 : (zfill 8 (keepDigits s)).length = 8 := by
            rw [length_zfill]; omega
          have hngt : ¬ (keepDigits s).length > 8 := by omega
          simp [hlt, h8, hngt]
        · have hz : zfill 8 (keepDigits s) = keepDigits s :=
            zfill_of_le 8 (keepDigits s) (by omega)
          by_cases heq : (keepDigits s).length = 8
          · simp [hlt, heq, hz]
          · have hgt : (keepDigits s).length > 8 := by omega
            simp [hlt, heq, hgt]
  · intro s₁ s₂ h₁ h₂ hdig
    simp only [escolhe_view_por_ncm, h₁, h₂, if_false, hdig]

/-- Witness for C1 (amended) at concrete inputs. -/
theorem C1_window_amended_witness :
    escolhe_view_por_ncm (some "0701.90.00") = selectWindowAmended (some "0701.90.00") ∧
    ("0701.90.00" ≠ "" ∧ "07019000" ≠ "" ∧ keepDigits "0701.90.00" = keepDigits "07019000") ∧
    escolhe_view_por_ncm (some "0701.90.00") = escolhe_view_por_ncm (some "07019000") :=
  ⟨C1_window_amended.1 (some "0701.90.00"), ⟨by decide, by decide, by decide⟩,
    C1_window_amended.2 "0701.90.00" "07019000" (by decide) (by decide) (by decide)⟩

theorem hasHash_append_single (s : XmlStore) (r : XmlRecord) (h : String) :
    hasHash (s ++ [r]) h = (hasHash s h || (r.hash_sha256 == h)) := by
  simp only [hasHash, List.any_append, List.any_cons, List.any_nil, Bool.or_false]

theorem salva_insert_of_fresh (s : XmlStore) (b : List Nat) (f c : Option String)
    (hf : hasHash s (SHA256.sha256hex b) = false) :
    salva_xml_no_banco s b f c =
      (SHA256.sha256hex b, s ++ [⟨SHA256.sha256hex b, f, c, b.length, b⟩]) := by
  simp [salva_xml_no_banco, hf]

theorem hasHash_salva_self (s : XmlStore) (b : List Nat) (f c : Option String) :
    hasHash (salva_xml_no_banco s b f c).2 (SHA256.sha256hex b) = true := by
  by_cases hh : hasHash s (SHA256.sha256hex b) = true
  · simp [salva_xml_no_banco, hh]
  · have hf : hasHash s (SHA256.sha256hex b) = false := by
      cases hb : hasHash s (SHA256.sha256hex b) with
      | false => rfl
      | true => exact absurd hb hh
    rw [salva_insert_of_fresh s b f c hf, hasHash_append_single]
    simp

theorem salva_noop_of_hasHash (s : XmlStore) (b : List Nat) (f c : Option String)
    (hh : hasHash s (SHA256.sha256hex b) = true) :
    salva_xml_no_banco s b f c = (SHA256.sha256hex b, s) := by
  simp [salva_xml_no_banco, hh]

theorem salvaMany_noop (s : XmlStore) (b : List Nat)
    (hh : hasHash s (SHA256.sha256hex b) = true) :
    ∀ ms : List (Option String × Option String), salvaMany s b ms = s := by
  intro ms
  induction ms with
  | nil => rfl
  | cons m ms ih => rw [salvaMany, salva_noop_of_hasHash s b m.1 m.2 hh]; exact ih

/-- C4: the stored hash is `sha256hex` of the raw bytes alone; a first store of
fresh bytes appends exactly one row carrying the first call's metadata; every later
store of the same bytes returns the same hash and leaves the table unchanged (so
the first metadata is never overwritten); and storing a second, different payload
whose digest differs adds a second row and returns a different hash.  The hash is
returned whether or not a row was inserted. -/
theorem C4_store_idempotent (s : XmlStore) (b b₂ : List Nat) (f₁ c₁ f₂ c₂ : Option String)
    (hfresh : hasHash s (SHA256.sha256hex b) = false)
    (hcount : countBlob s b = 0) :
    (salva_xml_no_banco s b f₁ c₁).1 = SHA256.sha256hex b ∧
    (∀ f c, salva_xml_no_banco (salva_xml_no_banco s b f₁ c₁).2 b f c =
      (SHA256.sha256hex b, (salva_xml_no_banco s b f₁ c₁).2)) ∧
    (∀ ms, salvaMany (salva_xml_no_banco s b f₁ c₁).2 b ms = (salva_xml_no_banco s b f₁ c₁).2) ∧
    countBlob (salva_xml_no_banco s b f₁ c₁).2 b = 1 ∧
    (salva_xml_no_banco s b f₁ c₁).2.filter (fun r => r.xml_blob == b) =
      [⟨SHA256.sha256hex b, f₁, c₁, b.length, b⟩] ∧
    (SHA256.sha256hex b ≠ SHA256.sha256hex b₂ → hasHash s (SHA256.sha256hex b₂) = false →
      (salva_xml_no_banco (salva_xml_no_banco s b f₁ c₁).2 b₂ f₂ c₂).2.length = s.length + 2 ∧
      (salva_xml_no_banco (salva_xml_no_banco s b f₁ c₁).2 b₂ f₂ c₂).1 ≠
        (salva_xml_no_banco s b f₁ c₁).1) := by
  have hstep : salva_xml_no_banco s b f₁ c₁ =
      (SHA256.sha256hex b,
        s ++ [⟨SHA256.sha256hex b, f₁, c₁, b.length, b⟩]) :=
    salva_insert_of_fresh s b f₁ c₁ hfresh
  have hfilter : s.filter (fun r => r.xml_blob == b) = [] := by
    have := hcount
    simpa [countBlob, List.length_eq_zero] using this
  refine ⟨by rw [hstep], ?_, ?_, ?_, ?_, ?_⟩
  · intro f c
    exact salva_noop_of_hasHash _ b f c (hasHash_salva_self s b f₁ c₁)
  · intro ms
    exact salvaMany_noop _ b (hasHash_salva_self s b f₁ c₁) ms
  · rw [hstep]
    simp [countBlob, List.filter_append, hfilter]
  · rw [hstep]
    simp [List.filter_append, hfilter]
  · intro hne hfresh₂
    have hh₂ : hasHash (salva_xml_no_banco s b f₁ c₁).2 (SHA256.sha256hex b₂) = false := by
      rw [hstep]
      rw [show (SHA256.sha256hex b,
          s ++ [(⟨SHA256.sha256hex b, f₁, c₁, b.length, b⟩ : XmlRecord)]).2 =
          s ++ [(⟨SHA256.sha256hex b, f₁, c₁, b.length, b⟩ : XmlRecord)] from rfl]
      rw [hasHash_append_single]
      have h2 : (SHA256.sha256hex b == SHA256.sha256hex b₂) = false := by
        simpa using hne
      simp [hfresh₂, h2]
    rw [salva_insert_of_fresh _ b₂ f₂ c₂ hh₂]
    constructor
    · rw [hstep]
      simp only [List.length_append, List.length_cons, List.length_nil]
    · rw [hstep]
      simpa using Ne.symm hne

set_option maxRecDepth 10000 in
/-- Witness for C4 at the empty table with payloads `[0]` and `[1]`. -/
theorem C4_store_idempotent_witness :
    (hasHash [] (SHA256.sha256hex [0]) = false ∧ countBlob [] [0] = 0 ∧
      SHA256.sha256hex [0] ≠ SHA256.sha256hex [1] ∧
      hasHash [] (SHA256.sha256hex [1]) = false) ∧
    countBlob (salva_xml_no_banco [] [0] (some "a.xml") (some "text/xml")).2 [0] = 1 ∧
    (salva_xml_no_banco (salva_xml_no_banco [] [0] (some "a.xml") (some "text/xml")).2
      [1] none none).2.length = 2 :=
  ⟨⟨rfl, rfl, by decide, rfl⟩,
    (C4_store_idempotent [] [0] [1] (some "a.xml") (some "text/xml") none none rfl
      rfl).2.2.2.1,
    ((C4_store_idempotent [] [0] [1] (some "a.xml") (some "text/xml") none none rfl
      rfl).2.2.2.2.2 (by decide) rfl).1⟩

/-- C5: `parse_nfe_itens` fails with `invalidDocument` exactly when the XML parser
rejected the input; fails with `noItemsFound` exactly when the document parsed but
yielded zero items (in particular whenever the tree has no `det` element); and
otherwise returns the non-empty item list.  No other outcome exists. -/
theorem C5_parse_failure_modes (parsed : Option XTree) :
    (parse_nfe_itens parsed = .error .invalidDocument ↔ parsed = none) ∧
    (parse_nfe_itens parsed = .error .noItemsFound ↔
      ∃ root, parsed = some root ∧ extractItems root = []) ∧
    (∀ root, parsed = some root → extractItems root ≠ [] →
      parse_nfe_itens parsed = .ok (extractItems root)) ∧
    (∀ l, parse_nfe_itens parsed = .ok l → l ≠ []) ∧
    (∀ root, parsed = some root → detNodes root = [] →
      parse_nfe_itens parsed = .error .noItemsFound) := by
  match parsed with
  | none =>
    refine ⟨by simp [parse_nfe_itens], by simp [parse_nfe_itens], ?_, ?_, ?_⟩
    · intro root hr _; exact absurd hr (by simp)
    · intro l hl; exact absurd hl (by simp [parse_nfe_itens])
    · intro root hr _; exact absurd hr (by simp)
  | some root =>
    by_cases he : extractItems root = []
    · have hp : parse_nfe_itens (some root) = .error .noItemsFound := by
        simp [parse_nfe_itens, he]
      refine ⟨by rw [hp]; simp, ?_, ?_, ?_, ?_⟩
      · rw [hp]; exact ⟨fun _ => ⟨root, rfl, he⟩, fun _ => rfl⟩
      · intro root' hr hne
        injection hr with h; subst h; exact absurd he hne
      · intro l hl; rw [hp] at hl; exact Except.noConfusion hl
      · intro _ _ _; exact hp
    · have hne' : (extractItems root).isEmpty = false := by
        simpa [List.isEmpty_iff] using he
      have hp : parse_nfe_itens (some root) = .ok (extractItems root) := by
        simp [parse_nfe_itens, hne']
      refine ⟨by rw [hp]; simp, ?_, ?_, ?_, ?_⟩
      · rw [hp]
        constructor
        · intro h; exact Except.noConfusion h
        · rintro ⟨r, hr, hr2⟩
          injection hr with h; subst h; exact absurd hr2 he
      · intro root' hr _; injection hr with h; subst h; exact hp
      · intro l hl
        rw [hp] at hl
        injection hl with h; subst h; exact he
      · intro root' hr hd
        injection hr with h; subst h
        have hext : extractItems root = [] := by
          unfold extractItems; rw [hd]; rfl
        exact absurd hext he

/-- Witness for C5: an unparseable input, a document with one full `det`, and a
document with no `det`. -/
theorem C5_parse_failure_modes_witness :
    parse_nfe_itens none = .error .invalidDocument ∧
    (extractItems sampleDoc ≠ [] ∧
      parse_nfe_itens (some sampleDoc) = .ok (extractItems sampleDoc)) ∧
    (detNodes noDetDoc = [] ∧ parse_nfe_itens (some noDetDoc) = .error .noItemsFound) :=
  ⟨(C5_parse_failure_modes none).1.mpr rfl,
   ⟨by decide, (C5_parse_failure_modes (some sampleDoc)).2.2.1 sampleDoc rfl (by decide)⟩,
   ⟨rfl, (C5_parse_failure_modes (some noDetDoc)).2.2.2.2 noDetDoc rfl rfl⟩⟩

/-- C6, counterexample: the code reads only the *first* `xProd` descendant of the
first `prod`; a `det` whose first `xProd` is whitespace-only is skipped even though
a later `xProd` descendant has non-empty text, contradicting the claim's
existential emission condition. -/
theorem C6_extractor_counterexample :
    claimC6Emits skipXProdDet = true ∧
    detToItem skipXProdDet = none ∧
    extractItems (.node "NFe" none [skipXProdDet]) = [] :=
  ⟨by decide, by decide, by decide⟩

/-- C6 (amended): the extractor emits one item per `det` element (at any depth, in
document order) whose *first* `prod` descendant has a *first* `xProd` descendant
with non-empty trimmed text; a `det` with no `prod`, or whose first `xProd` is
absent, empty or whitespace-only, is never emitted; `uCom` and `NCM` are each
independently optional and read from the first matching descendant of that
`prod`. -/
theorem C6_extractor_amended :
    (∀ root : XTree,
      extractItems root =
        (root.iter.filter (fun n => stripNs n.tag == "det")).filterMap detToItem) ∧
    (∀ det : XTree,
      (det.iter.find? (fun n => stripNs n.tag == "prod") = none → detToItem det = none) ∧
      (∀ prod, det.iter.find? (fun n => stripNs n.tag == "prod") = some prod →
        ((getText prod "xProd").getD "" = "" → detToItem det = none) ∧
        ((getText prod "xProd").getD "" ≠ "" →
          detToItem det = some ⟨(getText prod "xProd").getD "",
            (getText prod "uCom").getD "", (getText prod "NCM").getD ""⟩))) := by
  refine ⟨fun root => rfl, fun det => ⟨?_, ?_⟩⟩
  · intro h; simp [detToItem, h]
  · intro prod h
    refine ⟨fun hx => ?_, fun hx => ?_⟩
    · simp [detToItem, h, hx]
    · simp [detToItem, h, hx]

/-- Witness for C6 (amended) on concrete `det` elements. -/
theorem C6_extractor_amended_witness :
    extractItems sampleDoc =
      (sampleDoc.iter.filter (fun n => stripNs n.tag == "det")).filterMap detToItem ∧
    ((getText (.node "prod" none
        [.node "xProd" (some " Arroz 5kg ") [],
         .node "uCom" (some "UN") [],
         .node "NCM" (some "10063021") []]) "xProd").getD "" ≠ "" ∧
      detToItem sampleDet = some ⟨"Arroz 5kg", "UN", "10063021"⟩) := by
  refine ⟨(C6_extractor_amended).1 sampleDoc, by decide, ?_⟩
  have h := ((C6_extractor_amended).2 sampleDet).2
    (.node "prod" none
      [.node "xProd" (some " Arroz 5kg ") [],
       .node "uCom" (some "UN") [],
       .node "NCM" (some "10063021") []]) rfl
  rw [(h.2 (by decide))]
  decide

theorem NsEquiv.tag_eq : ∀ {a b : XTree}, NsEquiv a b → stripNs a.tag = stripNs b.tag
  | _, _, .node ht _ _ => ht

theorem NsEquiv.text_eq : ∀ {a b : XTree}, NsEquiv a b → a.text = b.text
  | _, _, .node _ hs _ => hs

theorem forall₂_append_of {α β : Type} {R : α → β → Prop} :
    ∀ {l₁ u₁ : List α} {l₂ u₂ : List β}, List.Forall₂ R l₁ l₂ → List.Forall₂ R u₁ u₂ →
      List.Forall₂ R (l₁ ++ u₁) (l₂ ++ u₂) := by
  intro l₁ u₁ l₂ u₂ h hu
  induction h with
  | nil => simpa using hu
  | cons hab _ ih => exact List.Forall₂.cons hab ih

mutual

theorem nsEquiv_iter : ∀ {a b : XTree}, NsEquiv a b →
    List.Forall₂ NsEquiv a.iter b.iter
  | _, _, .node ht hs hcs =>
    List.Forall₂.cons (.node ht hs hcs) (nsEquivList_iterList hcs)

theorem nsEquivList_iterList : ∀ {xs ys : List XTree}, NsEquivList xs ys →
    List.Forall₂ NsEquiv (iterList xs) (iterList ys)
  | _, _, .nil => List.Forall₂.nil
  | _, _, .cons hxy hrest =>
    forall₂_append_of (nsEquiv_iter hxy) (nsEquivList_iterList hrest)

end

theorem forall₂_filter_of {α : Type} {R : α → α → Prop} {p : α → Bool}
    (hpq : ∀ a b, R a b → p a = p b) :
    ∀ {l₁ l₂ : List α}, List.Forall₂ R l₁ l₂ →
      List.Forall₂ R (l₁.filter p) (l₂.filter p) := by
  intro l₁ l₂ h
  induction h with
  | nil => exact List.Forall₂.nil
  | @cons a b l₁ l₂ hab hrest ih =>
    by_cases hpa : p a = true
    · have hpb : p b = true := by rw [← hpq a b hab]; exact hpa
      simpa [List.filter_cons, hpa, hpb] using List.Forall₂.cons hab ih
    · have hpa' : p a = false := by simpa using hpa
      have hpb : p b = false := by rw [← hpq a b hab]; exact hpa'
      simpa [List.filter_cons, hpa', hpb] using ih

theorem find?_of_forall₂ {α : Type} {R : α → α → Prop} {p : α → Bool}
    (hpq : ∀ a b, R a b → p a = p b) :
    ∀ {l₁ l₂ : List α}, List.Forall₂ R l₁ l₂ →
      (l₁.find? p = none ∧ l₂.find? p = none) ∨
      (∃ a b, l₁.find? p = some a ∧ l₂.find? p = some b ∧ R a b) := by
  intro l₁ l₂ h
  induction h with
  | nil => exact Or.inl ⟨rfl, rfl⟩
  | @cons a b l₁ l₂ hab hrest ih =>
    by_cases hpa : p a = true
    · have hpb : p b = true := by rw [← hpq a b hab]; exact hpa
      exact Or.inr ⟨a, b, List.find?_cons_of_pos _ hpa, List.find?_cons_of_pos _ hpb, hab⟩
    · have hpa' : ¬ p a = true := hpa
      have hpb : ¬ p b = true := by rw [← hpq a b hab]; exact hpa
      rcases ih with ⟨h1, h2⟩ | ⟨x, y, hx, hy, hxy⟩
      · exact Or.inl ⟨by rw [List.find?_cons_of_neg _ hpa']; exact h1,
          by rw [List.find?_cons_of_neg _ hpb]; exact h2⟩
      · exact Or.inr ⟨x, y, by rw [List.find?_cons_of_neg _ hpa']; exact hx,
          by rw [List.find?_cons_of_neg _ hpb]; exact hy, hxy⟩

theorem filterMap_eq_of_forall₂ {α β : Type} {R : α → α → Prop} {f : α → Option β}
    (hf : ∀ a b, R a b → f a = f b) :
    ∀ {l₁ l₂ : List α}, List.Forall₂ R l₁ l₂ → l₁.filterMap f = l₂.filterMap f := by
  intro l₁ l₂ h
  induction h with
  | nil => rfl
  | @cons a b l₁ l₂ hab hrest ih =>
    rw [List.filterMap_cons, List.filterMap_cons, hf a b hab, ih]

theorem getText_nsEquiv {p₁ p₂ : XTree} (h : NsEquiv p₁ p₂) (w : String) :
    getText p₁ w = getText p₂ w := by
  have hagree : ∀ a b : XTree, NsEquiv a b →
      ((fun n => stripNs n.tag == w) a) = ((fun n => stripNs n.tag == w) b) := by
    intro a b hab
    simp only
    rw [hab.tag_eq]
  rcases find?_of_forall₂ hagree (nsEquiv_iter h) with ⟨h1, h2⟩ | ⟨x, y, hx, hy, hxy⟩
  · simp [getText, h1, h2]
  · simp [getText, hx, hy, hxy.text_eq]

theorem detToItem_nsEquiv {d₁ d₂ : XTree} (h : NsEquiv d₁ d₂) :
    detToItem d₁ = detToItem d₂ := by
  have hagree : ∀ a b : XTree, NsEquiv a b →
      ((fun n => stripNs n.tag == "prod") a) = ((fun n => stripNs n.tag == "prod") b) := by
    intro a b hab
    simp only
    rw [hab.tag_eq]
  rcases find?_of_forall₂ hagree (nsEquiv_iter h) with ⟨h1, h2⟩ | ⟨x, y, hx, hy, hxy⟩
  · simp [detToItem, h1, h2]
  · simp [detToItem, hx, hy, getText_nsEquiv hxy "xProd", getText_nsEquiv hxy "uCom",
      getText_nsEquiv hxy "NCM"]

/-- C9: extraction is invariant under namespaces — for any two parsed documents
with the same structure, text and local tag names (tags compared after stripping
the `{uri}` part), both the extracted item list and the full `parse_nfe_itens`
outcome coincide. -/
theorem C9_ns_invariance (t₁ t₂ : XTree) (h : NsEquiv t₁ t₂) :
    extractItems t₁ = extractItems t₂ ∧
    parse_nfe_itens (some t₁) = parse_nfe_itens (some t₂) := by
  have hagree : ∀ a b : XTree, NsEquiv a b →
      ((fun n => stripNs n.tag == "det") a) = ((fun n => stripNs n.tag == "det") b) := by
    intro a b hab
    simp only
    rw [hab.tag_eq]
  have hdet := forall₂_filter_of hagree (nsEquiv_iter h)
  have hext : extractItems t₁ = extractItems t₂ := by
    unfold extractItems detNodes findallNoNs
    exact filterMap_eq_of_forall₂ (fun a b hab => detToItem_nsEquiv hab) hdet
  exact ⟨hext, by simp [parse_nfe_itens, hext]⟩

/-- Witness for C9: a concrete namespaced document and its bare-tag copy extract
the same items. -/
theorem C9_ns_invariance_witness :
    NsEquiv nsDoc plainDoc ∧ extractItems nsDoc = extractItems plainDoc :=
  have hequiv : NsEquiv nsDoc plainDoc :=
    .node (by decide) rfl
      (.cons (.node (by decide) rfl
        (.cons (.node (by decide) rfl
          (.cons (.node (by decide) rfl .nil)
            (.cons (.node (by decide) rfl .nil) .nil))) .nil)) .nil)
  ⟨hequiv, (C9_ns_invariance nsDoc plainDoc hequiv).1⟩

theorem lookupNormRow_eq_none_iff (db : Db) (nome unidade : String) :
    lookupNormRow db nome unidade = none ↔
      db.mapa.filter
        (fun r => r.pr_nomeProduto == nome && r.pr_unidade == unidade) = [] := by
  unfold lookupNormRow
  rw [List.head?_eq_none_iff]
  constructor
  · intro h
    have hlen := congrArg List.length h
    rw [List.length_insertionSort] at hlen
    simpa [List.length_eq_zero] using hlen
  · intro h
    rw [h]
    rfl

theorem lookupNormRow_spec (db : Db) (nome unidade : String) (row : NormRecord)
    (h : lookupNormRow db nome unidade = some row) :
    row ∈ db.mapa.filter
      (fun r => r.pr_nomeProduto == nome && r.pr_unidade == unidade) ∧
    ∀ y ∈ db.mapa.filter
      (fun r => r.pr_nomeProduto == nome && r.pr_unidade == unidade),
      y.ocorrencias ≤ row.ocorrencias := by
  unfold lookupNormRow at h
  set l := db.mapa.filter
    (fun r => r.pr_nomeProduto == nome && r.pr_unidade == unidade) with hl
  cases hs : List.insertionSort occGe l with
  | nil => rw [hs] at h; exact absurd h (by simp)
  | cons a rest =>
    rw [hs] at h
    have ha : a = row := by simpa using h
    subst ha
    have hsorted := List.sorted_insertionSort occGe l
    rw [hs] at hsorted
    constructor
    · have hmem : a ∈ a :: rest := List.mem_cons_self a rest
      rw [← hs] at hmem
      exact (List.mem_insertionSort occGe).mp hmem
    · intro y hy
      have hy' : y ∈ a :: rest := by
        rw [← hs]
        exact (List.mem_insertionSort occGe).mpr hy
      rcases List.mem_cons.mp hy' with rfl | hmem
      · exact le_refl _
      · exact List.rel_of_sorted_cons hsorted y hmem

theorem status_dados_ne_sem : ("DADOS_INSUFICIENTES" : String) = "SEM_MAPEAMENTO" → False := by
  decide

theorem status_dados_ne_ok : ("DADOS_INSUFICIENTES" : String) = "OK" → False := by
  decide

theorem status_ok_ne_sem : ("OK" : String) = "SEM_MAPEAMENTO" → False := by
  decide

theorem status_ok_ne_dados : ("OK" : String) = "DADOS_INSUFICIENTES" → False := by
  decide

theorem processaItem_of_none (db : Db) (n_min limite : Nat) (item : ItemXML)
    (h : lookupNormRow db (pyStrip item.pr_nomeProduto) (pyStrip item.pr_unidade) = none) :
    processaItem db n_min limite item =
      ⟨pyStrip item.pr_nomeProduto, pyStrip item.pr_unidade, none, "SEM_MAPEAMENTO", []⟩ := by
  unfold processaItem
  rw [h]

theorem processaItem_of_some (db : Db) (n_min limite : Nat) (item : ItemXML)
    (row : NormRecord)
    (h : lookupNormRow db (pyStrip item.pr_nomeProduto) (pyStrip item.pr_unidade) =
      some row) :
    processaItem db n_min limite item =
      if (rankSuppliers db (escolhe_view_por_ncm item.pr_ncm) row.pr_nomeNorm
          (pyStrip item.pr_unidade) n_min limite).isEmpty then
        ⟨pyStrip item.pr_nomeProduto, pyStrip item.pr_unidade, some row.pr_nomeNorm,
          "DADOS_INSUFICIENTES", []⟩
      else
        ⟨pyStrip item.pr_nomeProduto, pyStrip item.pr_unidade, some row.pr_nomeNorm, "OK",
          rankSuppliers db (escolhe_view_por_ncm item.pr_ncm) row.pr_nomeNorm
            (pyStrip item.pr_unidade) n_min limite⟩ := by
  unfold processaItem
  rw [h]

/-- C2: after trimming, an item resolves to `SEM_MAPEAMENTO` (with empty supplier
list and no normalized name) exactly when no normalization row matches the exact
trimmed (name, unit) pair; otherwise the resolved name is that of a matching row
of maximal occurrence count, and the status is `DADOS_INSUFICIENTES` exactly when
the supplier ranking for that name is empty, `OK` (carrying the ranked list)
otherwise. -/
theorem C2_item_resolution (db : Db) (n_min limite : Nat) (item : ItemXML) :
    ((processaItem db n_min limite item).status = "SEM_MAPEAMENTO" ↔
      db.mapa.filter (fun r => r.pr_nomeProduto == pyStrip item.pr_nomeProduto &&
        r.pr_unidade == pyStrip item.pr_unidade) = []) ∧
    ((processaItem db n_min limite item).status = "SEM_MAPEAMENTO" →
      (processaItem db n_min limite item).fornecedores = [] ∧
      (processaItem db n_min limite item).pr_nomeNorm = none) ∧
    (∀ row, lookupNormRow db (pyStrip item.pr_nomeProduto) (pyStrip item.pr_unidade) =
        some row →
      (processaItem db n_min limite item).pr_nomeNorm = some row.pr_nomeNorm ∧
      row ∈ db.mapa.filter (fun r => r.pr_nomeProduto == pyStrip item.pr_nomeProduto &&
        r.pr_unidade == pyStrip item.pr_unidade) ∧
      (∀ y ∈ db.mapa.filter (fun r => r.pr_nomeProduto == pyStrip item.pr_nomeProduto &&
        r.pr_unidade == pyStrip item.pr_unidade), y.ocorrencias ≤ row.ocorrencias) ∧
      ((processaItem db n_min limite item).status = "DADOS_INSUFICIENTES" ↔
        rankSuppliers db (escolhe_view_por_ncm item.pr_ncm) row.pr_nomeNorm
          (pyStrip item.pr_unidade) n_min limite = []) ∧
      ((processaItem db n_min limite item).status = "OK" ↔
        rankSuppliers db (escolhe_view_por_ncm item.pr_ncm) row.pr_nomeNorm
          (pyStrip item.pr_unidade) n_min limite ≠ []) ∧
      ((processaItem db n_min limite item).status = "OK" →
        (processaItem db n_min limite item).fornecedores =
          rankSuppliers db (escolhe_view_por_ncm item.pr_ncm) row.pr_nomeNorm
            (pyStrip item.pr_unidade) n_min limite)) := by
  cases hlook : lookupNormRow db (pyStrip item.pr_nomeProduto) (pyStrip item.pr_unidade) with
  | none =>
    have hp := processaItem_of_none db n_min limite item hlook
    refine ⟨?_, ?_, ?_⟩
    · rw [hp]
      rw [← lookupNormRow_eq_none_iff db (pyStrip item.pr_nomeProduto)
        (pyStrip item.pr_unidade)]
      simp [hlook]
    · intro _
      rw [hp]
      exact ⟨rfl, rfl⟩
    · intro row hrow
      exact absurd hrow (by simp)
  | some row =>
    have hp := processaItem_of_some db n_min limite item row hlook
    have hspec := lookupNormRow_spec db (pyStrip item.pr_nomeProduto)
      (pyStrip item.pr_unidade) row hlook
    have hfilter_ne :
        ¬ db.mapa.filter (fun r => r.pr_nomeProduto == pyStrip item.pr_nomeProduto &&
          r.pr_unidade == pyStrip item.pr_unidade) = [] := by
      intro hnil
      have hlz := (lookupNormRow_eq_none_iff db (pyStrip item.pr_nomeProduto)
        (pyStrip item.pr_unidade)).mpr hnil
      rw [hlook] at hlz
      exact absurd hlz (by simp)
    by_cases hemp : (rankSuppliers db (escolhe_view_por_ncm item.pr_ncm) row.pr_nomeNorm
        (pyStrip item.pr_unidade) n_min limite).isEmpty = true
    · rw [if_pos hemp] at hp
      refine ⟨?_, ?_, ?_⟩
      · rw [hp]
        exact ⟨fun h => absurd h status_dados_ne_sem, fun h => absurd h hfilter_ne⟩
      · intro h
        rw [hp] at h
        exact absurd h status_dados_ne_sem
      · intro row' hrow'
        have hr : row = row' := by simpa using hrow'
        subst hr
        refine ⟨by rw [hp], hspec.1, hspec.2, ?_, ?_, ?_⟩
        · rw [hp]
          exact ⟨fun _ => List.isEmpty_iff.mp hemp, fun _ => rfl⟩
        · rw [hp]
          exact ⟨fun h => absurd h status_dados_ne_ok,
            fun hne => absurd (List.isEmpty_iff.mp hemp) hne⟩
        · intro h
          rw [hp] at h
          exact absurd h status_dados_ne_ok
    · rw [if_neg hemp] at hp
      have hne : rankSuppliers db (escolhe_view_por_ncm item.pr_ncm) row.pr_nomeNorm
          (pyStrip item.pr_unidade) n_min limite ≠ [] :=
        List.isEmpty_eq_false.mp (by simpa using hemp)
      refine ⟨?_, ?_, ?_⟩
      · rw [hp]
        exact ⟨fun h => absurd h status_ok_ne_sem, fun h => absurd h hfilter_ne⟩
      · intro h
        rw [hp] at h
        exact absurd h status_ok_ne_sem
      · intro row' hrow'
        have hr : row = row' := by simpa using hrow'
        subst hr
        refine ⟨by rw [hp], hspec.1, hspec.2, ?_, ?_, ?_⟩
        · rw [hp]
          exact ⟨fun h => absurd h status_ok_ne_dados, fun hnil => absurd hnil hne⟩
        · rw [hp]
          exact ⟨fun _ => hne, fun _ => rfl⟩
        · intro _
          rw [hp]

/-- Witness for C2 at a concrete database and item: the lookup resolves to the
highest-occurrence row and the item comes out `OK`. -/
theorem C2_item_resolution_witness :
    lookupNormRow sampleDb (pyStrip sampleItem.pr_nomeProduto)
      (pyStrip sampleItem.pr_unidade) = some recArroz ∧
    (processaItem sampleDb 3 5 sampleItem).pr_nomeNorm = some recArroz.pr_nomeNorm ∧
    (processaItem sampleDb 3 5 sampleItem).status = "OK" :=
  ⟨by decide,
    ((C2_item_resolution sampleDb 3 5 sampleItem).2.2 recArroz (by decide)).1,
    ((C2_item_resolution sampleDb 3 5 sampleItem).2.2 recArroz
      (by decide)).2.2.2.2.1.mpr (by decide)⟩

/-- C3: `analisa` returns exactly one result per input item, in input order; the
`i`-th result is a function of the `i`-th item alone, so no per-item outcome can
abort or alter the processing of the other items. -/
theorem C3_batch_shape (db : Db) (req : AnalisaRequest) :
    (analisa db req).length = req.itens.length ∧
    ∀ (i : Nat) (h1 : i < (analisa db req).length) (h2 : i < req.itens.length),
      (analisa db req).get ⟨i, h1⟩ =
        processaItem db req.n_min req.limite_fornecedores (req.itens.get ⟨i, h2⟩) := by
  refine ⟨by simp [analisa], ?_⟩
  intro i h1 h2
  simp [analisa]

/-- Witness for C3 at a concrete two-item batch. -/
theorem C3_batch_shape_witness :
    (analisa sampleDb sampleReq).length = sampleReq.itens.length ∧
    (1 < (analisa sampleDb sampleReq).length ∧ 1 < sampleReq.itens.length) ∧
    (analisa sampleDb sampleReq).get ⟨1, by decide⟩ =
      processaItem sampleDb sampleReq.n_min sampleReq.limite_fornecedores
        (sampleReq.itens.get ⟨1, by decide⟩) :=
  ⟨(C3_batch_shape sampleDb sampleReq).1, ⟨by decide, by decide⟩,
    (C3_batch_shape sampleDb sampleReq).2 1 (by decide) (by decide)⟩

/-- C7: every quote returned by the ranking query matches the exact (normalized
name, unit) pair and meets the minimum-observation threshold; the list is sorted
by mean price ascending and no longer than the supplier limit. -/
theorem C7_ranking_query (db : Db) (view nome unidade : String) (n_min limite : Nat) :
    (∀ q ∈ rankSuppliers db view nome unidade n_min limite,
      q.pr_nomeNorm = nome ∧ q.pr_unidade = unidade ∧ n_min ≤ q.n) ∧
    List.Sorted precoLe (rankSuppliers db view nome unidade n_min limite) ∧
    (rankSuppliers db view nome unidade n_min limite).length ≤ limite := by
  refine ⟨?_, ?_, ?_⟩
  · intro q hq
    have hq1 := List.mem_of_mem_take hq
    have hq2 := (List.mem_insertionSort precoLe).mp hq1
    have hq3 := List.of_mem_filter hq2
    simp only [Bool.and_eq_true, beq_iff_eq, decide_eq_true_eq] at hq3
    exact ⟨hq3.1.1, hq3.1.2, hq3.2⟩
  · exact List.Pairwise.sublist (List.take_sublist limite _)
      (List.sorted_insertionSort precoLe _)
  · exact List.length_take_le limite _

/-- Witness for C7 at a concrete view and query. -/
theorem C7_ranking_query_witness :
    quoteB ∈ rankSuppliers sampleDb VIEW_90D "ARROZ" "UN" 3 5 ∧
    (quoteB.pr_nomeNorm = "ARROZ" ∧ quoteB.pr_unidade = "UN" ∧ 3 ≤ quoteB.n) ∧
    (rankSuppliers sampleDb VIEW_90D "ARROZ" "UN" 3 5).length ≤ 5 :=
  ⟨by decide,
    (C7_ranking_query sampleDb VIEW_90D "ARROZ" "UN" 3 5).1 quoteB (by decide),
    (C7_ranking_query sampleDb VIEW_90D "ARROZ" "UN" 3 5).2.2⟩

/-- C8: every result produced by `analisa` carries a status from the closed set
`{OK, SEM_MAPEAMENTO, DADOS_INSUFICIENTES}` (the code's spellings of OK,
NO_MAPPING, INSUFFICIENT_DATA), and its supplier list is non-empty exactly when
the status is `OK`. -/
theorem C8_status_invariant (db : Db) (req : AnalisaRequest) :
    ∀ r ∈ analisa db req,
      (r.status = "OK" ∨ r.status = "SEM_MAPEAMENTO" ∨ r.status = "DADOS_INSUFICIENTES") ∧
      (r.fornecedores ≠ [] ↔ r.status = "OK") := by
  intro r hr
  obtain ⟨item, -, rfl⟩ := List.mem_map.mp hr
  cases hlook : lookupNormRow db (pyStrip item.pr_nomeProduto) (pyStrip item.pr_unidade) with
  | none =>
    rw [processaItem_of_none db req.n_min req.limite_fornecedores item hlook]
    refine ⟨Or.inr (Or.inl rfl), ?_, ?_⟩
    · intro h
      exact absurd rfl h
    · intro h
      exact absurd h (fun hx => status_ok_ne_sem hx.symm)
  | some row =>
    rw [processaItem_of_some db req.n_min req.limite_fornecedores item row hlook]
    by_cases hemp : (rankSuppliers db (escolhe_view_por_ncm item.pr_ncm) row.pr_nomeNorm
        (pyStrip item.pr_unidade) req.n_min req.limite_fornecedores).isEmpty = true
    · rw [if_pos hemp]
      refine ⟨Or.inr (Or.inr rfl), ?_, ?_⟩
      · intro h
        exact absurd rfl h
      · intro h
        exact absurd h (fun hx => status_ok_ne_dados hx.symm)
    · rw [if_neg hemp]
      refine ⟨Or.inl rfl, ?_, ?_⟩
      · intro _
        rfl
      · intro _
        exact List.isEmpty_eq_false.mp (by simpa using hemp)

/-- Witness for C8 at a concrete batch member. -/
theorem C8_status_invariant_witness :
    processaItem sampleDb sampleReq.n_min sampleReq.limite_fornecedores sampleItem ∈
      analisa sampleDb sampleReq ∧
    (((processaItem sampleDb sampleReq.n_min sampleReq.limite_fornecedores
        sampleItem).status = "OK" ∨
      (processaItem sampleDb sampleReq.n_min sampleReq.limite_fornecedores
        sampleItem).status = "SEM_MAPEAMENTO" ∨
      (processaItem sampleDb sampleReq.n_min sampleReq.limite_fornecedores
        sampleItem).status = "DADOS_INSUFICIENTES") ∧
     ((processaItem sampleDb sampleReq.n_min sampleReq.limite_fornecedores
        sampleItem).fornecedores ≠ [] ↔
      (processaItem sampleDb sampleReq.n_min sampleReq.limite_fornecedores
        sampleItem).status = "OK")) :=
  ⟨by decide, C8_status_invariant sampleDb sampleReq _ (by decide)⟩

/-- C10: the document-store write of `analisa_xml` happens before extraction is
attempted and is unaffected by its outcome — the resulting store always equals the
store after `salva_xml_no_banco`, it always contains the bytes' hash, and this
holds in particular when the endpoint returns an extraction error. -/
theorem C10_store_before_parse (parseXml : List Nat → Option XTree) (store : XmlStore)
    (b : List Nat) (f c : Option String) :
    (analisa_xml parseXml store b f c).2 = (salva_xml_no_banco store b f c).2 ∧
    hasHash (analisa_xml parseXml store b f c).2 (SHA256.sha256hex b) = true ∧
    (∀ e, (analisa_xml parseXml store b f c).1 = .error e →
      hasHash (analisa_xml parseXml store b f c).2 (SHA256.sha256hex b) = true) := by
  have h2 : (analisa_xml parseXml store b f c).2 = (salva_xml_no_banco store b f c).2 := by
    unfold analisa_xml
    cases parse_nfe_itens (parseXml b) <;> rfl
  refine ⟨h2, ?_, fun e _ => ?_⟩ <;> rw [h2] <;> exact hasHash_salva_self store b f c

/-- Witness for C10: a document the parser rejects is still stored. -/
theorem C10_store_before_parse_witness :
    (analisa_xml (fun _ => none) [] [0] none none).1 = .error .invalidDocument ∧
    hasHash (analisa_xml (fun _ => none) [] [0] none none).2 (SHA256.sha256hex [0]) = true :=
  ⟨rfl, (C10_store_before_parse (fun _ => none) [] [0] none none).2.2
    .invalidDocument rfl⟩

end MiniIzi
